import Mathlib

/-!
Verification of the plato-server experience pipeline
(`experience_memory.py`, `server.py`, `tensorboard_writer.py`).

Conventions of the shallow embedding:
* float tensors are modelled as lists of rationals;
* `random.random()` is an explicit stream `rand : Nat → ℚ` of draws together
  with the index of the next unused draw, consumed left to right;
* `random.sample`'s choice of buffer positions is an explicit list argument;
* raised Python exceptions become `Except` / explicit error fields;
* the filesystem seen by checkpoint saving/loading is a record of optional
  artifact contents, and lock acquisition results are boolean parameters.
-/

namespace Plato

/-- Python exception kinds raised by the embedded code paths. -/
inductive PyError
  | indexError (msg : String)
  | valueError (msg : String)
  | runtimeError (msg : String)
  deriving Repr, DecidableEq

/-- Index of the reward element inside a stored transition row:
`self._reward_idx = 8 + 1` in `ExperienceMemory.__init__` (hardcoded,
not derived from the server's `state_dims`). -/
def rewardIdx : Nat := 8 + 1

/-- Index of the terminal flag inside a stored transition row:
`self._terminal_idx = self._reward_idx + 1 + 8` in
`ExperienceMemory.__init__` (hardcoded, not derived from `state_dims`). -/
def terminalIdx : Nat := rewardIdx + 1 + 8

/-- The replay buffer state: fixed capacity, slot list, write cursor. -/
structure ExperienceMemory where
  capacity : Nat
  memory : List (List ℚ)
  pos : Nat
  deriving Repr, DecidableEq

/-- `ExperienceMemory.__init__`: raises `ValueError` unless the capacity is
positive, otherwise starts with an empty slot list and cursor 0. -/
def ExperienceMemory.init (capacity : Int) : Except PyError ExperienceMemory :=
  if capacity ≤ 0 then .error (.valueError "Capacity must be positive")
  else .ok { capacity := capacity.toNat, memory := [], pos := 0 }

/-- The slot-occupancy test `self.memory[i][self._terminal_idx] > 0`. -/
def isTerminalRow (row : List ℚ) : Bool := decide (0 < row.getD terminalIdx 0)

/-- One draw of `random.random() < 0.9` (the fixed keep probability). -/
def keep (rand : Nat → ℚ) (i : Nat) : Bool := decide (rand i < (9 : ℚ) / 10)

/-- The bounded cursor-advancing loop inside `record_transition`:
`while self.memory[self.pos][self._terminal_idx] > 0 and random.random() < 0.9`
with `num_checked` capping the number of iterations at `capacity`.
`fuel` is the number of iterations still permitted; the function returns the
final cursor together with the index of the next unused random draw.
Note the short circuit: a draw is consumed only when the slot is terminal. -/
def evictLoop (mem : List (List ℚ)) (cap : Nat) (rand : Nat → ℚ) :
    Nat → Nat → Nat → Nat × Nat
  | 0, pos, ci => (pos, ci)
  | fuel + 1, pos, ci =>
    if isTerminalRow (mem.getD pos []) then
      if keep rand ci then evictLoop mem cap rand fuel ((pos + 1) % cap) (ci + 1)
      else (pos, ci + 1)
    else (pos, ci)

/-- `ExperienceMemory.record_transition` on an already 1-D transition.
Returns the new buffer state with the index of the next unused random draw,
or the raised exception (which in the Python code happens before any
mutation of the buffer). -/
def ExperienceMemory.record_transition (m : ExperienceMemory) (t : List ℚ)
    (rand : Nat → ℚ) (ci : Nat) : Except PyError (ExperienceMemory × Nat) :=
  if terminalIdx ≥ t.length then
    .error (.indexError "Calculated terminal index is out of bounds for transition length")
  else if m.memory.length < m.capacity then
    .ok ({ m with memory := m.memory ++ [t] }, ci)
  else if isTerminalRow (m.memory.getD m.pos []) then
    if keep rand ci then
      let r := evictLoop m.memory m.capacity rand m.capacity
        ((m.pos + 1) % m.capacity) (ci + 1)
      .ok ({ m with memory := m.memory.set r.1 t, pos := (r.1 + 1) % m.capacity }, r.2)
    else
      .ok ({ m with memory := m.memory.set m.pos t, pos := (m.pos + 1) % m.capacity }, ci + 1)
  else
    .ok ({ m with memory := m.memory.set m.pos t, pos := (m.pos + 1) % m.capacity }, ci)

/-- A `record_transition` call as seen by a caller that survives the
exception: on an error the buffer object is unchanged. -/
def recordStep (m : ExperienceMemory) (t : List ℚ) (rand : Nat → ℚ) (ci : Nat) :
    ExperienceMemory × Nat :=
  match m.record_transition t rand ci with
  | .ok r => r
  | .error _ => (m, ci)

/-- Buffer sizes observed after each call of a sequence of
`record_transition` calls. -/
def sizesAfter (m : ExperienceMemory) (rand : Nat → ℚ) (ci : Nat) :
    List (List ℚ) → List Nat
  | [] => []
  | t :: ts =>
    (recordStep m t rand ci).1.memory.length ::
      sizesAfter (recordStep m t rand ci).1 rand (recordStep m t rand ci).2 ts

/-- `torch.stack` on a list of 1-D rows: requires a nonempty list of
equal-length rows. -/
def stackRows (rows : List (List ℚ)) : Except PyError (List (List ℚ)) :=
  match rows with
  | [] => .error (.runtimeError "stack expects a non-empty list of tensors")
  | r :: rs =>
    if rs.all (fun x => x.length = r.length) then .ok (r :: rs)
    else .error (.runtimeError "stack expects each tensor to be equal size")

/-- `ExperienceMemory.get_batch`: raises `ValueError` when the requested
batch exceeds the stored count, otherwise stacks the transitions picked by
`random.sample` (whose choice of positions is the `choice` argument). -/
def ExperienceMemory.get_batch (m : ExperienceMemory) (batch_size : Nat)
    (choice : List Nat) : Except PyError (List (List ℚ)) :=
  if batch_size > m.memory.length then
    .error (.valueError "Requested batch size is larger than memory size")
  else stackRows (choice.map fun i => m.memory.getD i [])

/-! ## Server model (`server.py`: `EnvironmentServer`)

The Q-network is an abstract `net : List ℚ → List ℚ` mapping a state to the
per-action value estimates; the gradient step mutates parameters that the
claims never inspect, so the trace of a training update records the computed
quantities (targets, loss, the clipping max-norm, the number of optimizer
steps) instead. -/

/-- Per-client episode accumulator (`self.episodes[client_id]`). -/
structure Episode where
  reward : ℚ
  length : Nat
  q_values : List ℚ
  deriving Repr, DecidableEq

/-- One `writer.log_episode` call made by `_handle_transition`. -/
structure EpisodeLog where
  length : Nat
  reward : ℚ
  avg_q_value : ℚ
  deriving Repr, DecidableEq

/-- Trace of one training update performed by `perform_update`. -/
structure TrainStep where
  rows : List (List ℚ)
  qCur : List (List ℚ)
  qNext : List (List ℚ)
  qTaken : List ℚ
  targets : List ℚ
  loss : ℚ
  clipMaxNorm : ℚ
  optimSteps : Nat
  step : Nat
  deriving Repr, DecidableEq

/-- The `EnvironmentServer` state relevant to the claims. -/
structure ServerState where
  state_dims : Nat
  action_dims : Nat
  batch_size : Nat
  gamma : ℚ
  updates_counter : Nat
  memory : ExperienceMemory
  episodes : List (Int × Episode)
  episodeLogs : List EpisodeLog
  trainSteps : List TrainStep
  deriving Repr, DecidableEq

/-- Dictionary lookup `self.episodes[client_id]`. -/
def lookupEp (es : List (Int × Episode)) (cid : Int) : Option Episode :=
  (es.find? fun p => decide (p.1 = cid)).map Prod.snd

/-- Dictionary assignment `self.episodes[client_id] = e`. -/
def setEp (es : List (Int × Episode)) (cid : Int) (e : Episode) :
    List (Int × Episode) :=
  if es.any (fun p => decide (p.1 = cid)) then
    es.map fun p => if p.1 = cid then (cid, e) else p
  else es ++ [(cid, e)]

/-- Dictionary deletion `del self.episodes[client_id]`. -/
def eraseEp (es : List (Int × Episode)) (cid : Int) : List (Int × Episode) :=
  es.filter fun p => decide (p.1 ≠ cid)

/-- `np.mean` over a list of values. -/
def listMean (l : List ℚ) : ℚ := l.sum / l.length

/-- `tensor.max(dim=1)[0]` on one row (used on the per-action value rows,
which are nonempty in every reachable call). -/
def rowMax (l : List ℚ) : ℚ := l.foldl max (l.headD 0)

/-- `F.mse_loss` with the default mean reduction. -/
def mseLoss (pred target : List ℚ) : ℚ :=
  (List.zipWith (fun a b => (a - b) ^ 2) pred target).sum / pred.length

/-- Result of `perform_update`: an uncaught exception plus the state as it
stands when the exception escapes. -/
structure UpdateResult where
  err : Option String
  s : ServerState
  deriving Repr, DecidableEq

/-- The tensor arithmetic of one `perform_update` training step on the
sampled batch `rows`: the column splits, the one-step bootstrapped targets
with the bootstrap term zeroed on terminal rows, and the mean-squared-error
loss; `clip_grad_norm_(…, max_norm=1.0)` followed by a single
`optimizer.step()` is recorded as `clipMaxNorm = 1`, `optimSteps = 1`. -/
def mkTrainStep (s : ServerState) (net : List ℚ → List ℚ)
    (rows : List (List ℚ)) : TrainStep :=
  let D := s.state_dims
  let actions := rows.map fun r => Int.floor (r.getD D 0)
  let rewards := rows.map fun r => r.getD (D + 1) 0
  let terminals := rows.map fun r => decide (r.getD (2 * D + 2) 0 ≠ 0)
  let qCur := rows.map fun r => net (r.take D)
  let qTaken := (qCur.zip actions).map fun p => p.1.getD p.2.toNat 0
  let qNext := rows.map fun r => net ((r.drop (D + 2)).take D)
  let masked := List.zipWith (fun c q => if c then 0 else q) terminals
    (qNext.map rowMax)
  let targets := List.zipWith (fun r mq => r + s.gamma * mq) rewards masked
  ⟨rows, qCur, qNext, qTaken, targets, mseLoss qTaken targets, 1, 1,
    s.updates_counter + 1⟩

/-- `EnvironmentServer.perform_update`.  `sampleIdx` is the choice of buffer
positions made by `random.sample` inside `get_batch`.  Error paths: the size
guard and the `except ValueError` handler skip silently; a `torch.stack` or
`gather` failure escapes the method. -/
def perform_update (s : ServerState) (net : List ℚ → List ℚ)
    (sampleIdx : List Nat) : UpdateResult :=
  if s.memory.memory.length < s.batch_size then ⟨none, s⟩
  else
    match s.memory.get_batch s.batch_size sampleIdx with
    | .error (.valueError _) => ⟨none, s⟩
    | .error (.runtimeError msg) => ⟨some msg, s⟩
    | .error (.indexError msg) => ⟨some msg, s⟩
    | .ok rows =>
      if (rows.headD []).length ≠ 2 * s.state_dims + 3 then ⟨none, s⟩
      else
        let qCur := rows.map fun r => net (r.take s.state_dims)
        let actions := rows.map fun r => Int.floor (r.getD s.state_dims 0)
        if (qCur.zip actions).all (fun p => decide (0 ≤ p.2 ∧ p.2 < (p.1.length : Int))) then
          ⟨none, { s with updates_counter := s.updates_counter + 1,
                          trainSteps := mkTrainStep s net rows :: s.trainSteps }⟩
        else ⟨some "gather index out of bounds", s⟩

/-- Result of `_handle_transition`: an uncaught exception (caught by the
listener loop), the state as the exception escapes, and the index of the
next unused random draw. -/
structure HandleResult where
  err : Option String
  s : ServerState
  ci : Nat
  deriving Repr, DecidableEq

/-- `EnvironmentServer._handle_transition` on a decoded packet.  Mirrors the
source order: record into the buffer (an `IndexError` escapes before any
episode bookkeeping), create the accumulator for an unseen client id,
accumulate reward/length/metric value, on a terminal flag emit the episode
summary and delete the accumulator (the warning branch for an id missing
from `self.episodes` is kept, though the earlier creation makes it
unreachable), finally trigger a training update when the buffer has at
least `batch_size` entries.  The non-finite episode-reward sanitization of
lines 448-452 cannot fire over ℚ and is modelled separately
(`sanitizeEpisodeReward`). -/
def handle_transition (s : ServerState) (net : List ℚ → List ℚ) (client_id : Int)
    (packet : List ℚ) (rand : Nat → ℚ) (ci : Nat) (sampleIdx : List Nat) :
    HandleResult :=
  match s.memory.record_transition packet rand ci with
  | .error (.indexError msg) => ⟨some msg, s, ci⟩
  | .error (.valueError msg) => ⟨some msg, s, ci⟩
  | .error (.runtimeError msg) => ⟨some msg, s, ci⟩
  | .ok (mem', ci') =>
    let s1 := { s with memory := mem' }
    let es :=
      if lookupEp s1.episodes client_id = none then
        setEp s1.episodes client_id ⟨0, 0, []⟩
      else s1.episodes
    let D := s1.state_dims
    let reward := packet.getD (D + 1) 0
    let terminal := decide (packet.getD (2 * D + 2) 0 ≠ 0)
    let ep := (lookupEp es client_id).getD ⟨0, 0, []⟩
    let qmean := listMean (net ((packet.drop (D + 2)).take D))
    let ep' : Episode := ⟨ep.reward + reward, ep.length + 1, ep.q_values ++ [qmean]⟩
    let s2 := { s1 with episodes := setEp es client_id ep' }
    let s3 :=
      if terminal then
        match lookupEp s2.episodes client_id with
        | some e =>
          { s2 with
            episodeLogs := s2.episodeLogs ++
              [⟨e.length, e.reward, if e.q_values = [] then 0 else listMean e.q_values⟩],
            episodes := eraseEp s2.episodes client_id }
        | none => s2
      else s2
    if s3.batch_size ≤ s3.memory.memory.length then
      let r := perform_update s3 net sampleIdx
      ⟨r.err, r.s, ci'⟩
    else ⟨none, s3, ci'⟩

/-! ## Metrics emitter (`tensorboard_writer.py` and the episode-reward
sanitization in `_handle_transition`)

Metric values are floats whose only inspected property is `np.isfinite`, so
they are modelled as either a finite rational or the collapsed non-finite
value. -/

/-- A float metric value: finite, or non-finite (NaN or an infinity). -/
inductive FVal
  | fin (q : ℚ)
  | nonfinite
  deriving Repr, DecidableEq

/-- `np.isfinite`. -/
def FVal.isFinite : FVal → Bool
  | .fin _ => true
  | .nonfinite => false

/-- An episode summary queued by `TensorBoardWriter.log_episode`. -/
structure EpisodeMsg where
  length : Nat
  reward : FVal
  avg_q_value : FVal
  deriving Repr, DecidableEq

/-- An update summary queued by `TensorBoardWriter.log_update`. -/
structure UpdateMsg where
  loss : FVal
  avg_reward : FVal
  avg_q_values : List FVal
  update_step : Nat
  deriving Repr, DecidableEq

/-- `TensorBoardWriter.log_episode`: sanitizes a non-finite average value to
0 with a warning and always queues the message (`none` would mean no message
was queued). -/
def log_episode (length : Nat) (reward : FVal) (avg_q_value : FVal) :
    Option EpisodeMsg :=
  let aq := if avg_q_value.isFinite then avg_q_value else .fin 0
  some ⟨length, reward, aq⟩

/-- `TensorBoardWriter.log_update`: a non-finite loss skips the whole
message; a non-finite batch average reward is sanitized to 0 and the message
is queued. -/
def log_update (loss : FVal) (avg_reward : FVal) (avg_q_values : List FVal)
    (update_step : Nat) : Option UpdateMsg :=
  if loss.isFinite then
    some ⟨loss, if avg_reward.isFinite then avg_reward else .fin 0,
      avg_q_values, update_step⟩
  else none

/-- The episode-reward sanitization performed by `_handle_transition`
(server.py lines 448-452) just before it calls `log_episode`. -/
def sanitizeEpisodeReward (reward : FVal) : FVal :=
  if reward.isFinite then reward else .fin 0

/-! ## Checkpoint store (`_save_network`, `_save_network_internal`,
`_initialize_network_state`)

The on-disk artifacts are modelled by their recorded update counter
(`none` = the file does not exist).  The ONNX artifact stores no counter;
its `Option Int` content is an opaque version stamp. -/

/-- The checkpoint files: the three durable artifacts and their `.tmp`
staging twins. -/
structure FsState where
  onnx : Option Int
  updates : Option Int
  pt : Option Int
  onnxTmp : Option Int
  updatesTmp : Option Int
  ptTmp : Option Int
  deriving Repr, DecidableEq

/-- Remove every existing temp file (the `except` handler of
`_save_network_internal`). -/
def clearTemps (fs : FsState) : FsState :=
  { fs with onnxTmp := none, updatesTmp := none, ptTmp := none }

/-- The six sequential effects of `_save_network_internal`: write the three
temp artifacts, then `os.replace` each over its durable path. -/
def applyStep (fs : FsState) (c : Int) : Nat → FsState
  | 0 => { fs with onnxTmp := some c }
  | 1 => { fs with updatesTmp := some c }
  | 2 => { fs with ptTmp := some c }
  | 3 => { fs with onnx := fs.onnxTmp, onnxTmp := none }
  | 4 => { fs with updates := fs.updatesTmp, updatesTmp := none }
  | 5 => { fs with pt := fs.ptTmp, ptTmp := none }
  | _ => fs

/-- Outcome of `_save_network_internal`: completed, or an exception escaping
after the temp cleanup. -/
inductive SaveResult
  | ok (fs : FsState)
  | raised (fs : FsState)
  deriving Repr, DecidableEq

/-- Runs the remaining steps of `_save_network_internal`; an injected
failure at step `k` (`failAt = some k`) raises after the steps before `k`
have taken effect, and the handler deletes every temp file before
re-raising. -/
def saveGo (c : Int) (failAt : Option Nat) : List Nat → FsState → SaveResult
  | [], acc => .ok acc
  | k :: ks, acc =>
    if failAt = some k then .raised (clearTemps acc)
    else saveGo c failAt ks (applyStep acc c k)

/-- `EnvironmentServer._save_network_internal` (assumes the lock is held). -/
def save_network_internal (fs : FsState) (c : Int) (failAt : Option Nat) :
    SaveResult :=
  saveGo c failAt [0, 1, 2, 3, 4, 5] fs

/-- The `lock.acquire(timeout=10)` used by `_save_network`, in seconds. -/
def saveLockTimeout : Nat := 10

/-- How a `_save_network` call ended. -/
inductive SaveOutcome
  | skippedTimeout
  | saved
  | failedLogged
  deriving Repr, DecidableEq

/-- Result of `_save_network`: the filesystem, how the call ended, and
whether the lock is still held afterwards. -/
structure SaveRun where
  fs : FsState
  outcome : SaveOutcome
  lockHeldAfter : Bool
  deriving Repr, DecidableEq

/-- `EnvironmentServer._save_network` (the public save): a lock timeout
logs and skips; an exception from the internal save is caught and logged
(`except Exception` at lines 299-300), so the method always returns
normally; the `finally` block releases the lock on every path. -/
def save_network (fs : FsState) (c : Int) (lockAvailable : Bool)
    (failAt : Option Nat) : SaveRun :=
  if lockAvailable then
    match save_network_internal fs c failAt with
    | .ok fs' => ⟨fs', .saved, false⟩
    | .raised fs' => ⟨fs', .failedLogged, false⟩
  else ⟨fs, .skippedTimeout, false⟩

/-- `EnvironmentServer._initialize_network_state`.  Inputs: whether the
20-second initial lock acquisition succeeded (failure is fatal), the
filesystem, whether reading/parsing the updates file raises, whether
loading the PyTorch checkpoint raises, and an injected failure point for
the forced initial save.  Returns the fatal error, or the resulting
update counter, whether a fresh save was forced, and the filesystem. -/
def init_network_state (lockAcquired : Bool) (fs : FsState)
    (readFails ptLoadFails : Bool) (saveFail : Option Nat) :
    Except Unit (Int × Bool × FsState) :=
  if lockAcquired = false then .error ()
  else
    let doSave : Except Unit (Int × Bool × FsState) :=
      match save_network_internal fs 0 saveFail with
      | .ok fs' => .ok (0, true, fs')
      | .raised _ => .error ()
    match fs.onnx, fs.updates with
    | some _, some loaded =>
      if readFails then doSave
      else
        match fs.pt with
        | some _ =>
          if ptLoadFails then doSave
          else .ok (loaded, false, fs)
        | none => doSave
    | _, _ => doSave

/-! ## Concrete instances used by witnesses and counterexamples -/

/-- A transition row of length 19 whose terminal flag is `v`. -/
def row19 (v : ℚ) : List ℚ := List.replicate 18 0 ++ [v]

/-- A full two-slot buffer: a terminal transition followed by a
non-terminal one, cursor at slot 0. -/
def evMem2 : ExperienceMemory :=
  { capacity := 2, memory := [row19 1, row19 0], pos := 0 }

/-- A value network with a single action, used in concrete runs. -/
def net0 : List ℚ → List ℚ := fun _ => [0]

/-- An empty-buffer server state with `state_dims = 8` and a batch size the
buffer never reaches. -/
def s0 : ServerState :=
  { state_dims := 8, action_dims := 1, batch_size := 100, gamma := 0,
    updates_counter := 0,
    memory := { capacity := 5, memory := [], pos := 0 },
    episodes := [], episodeLogs := [], trainSteps := [] }

/-- A server state whose buffer already holds one transition and whose
batch size is 1, so the next record triggers an update. -/
def s1 : ServerState :=
  { state_dims := 8, action_dims := 1, batch_size := 1, gamma := 1 / 2,
    updates_counter := 0,
    memory := { capacity := 5, memory := [row19 0], pos := 0 },
    episodes := [], episodeLogs := [], trainSteps := [] }

/-- A filesystem whose counter file says 5 while the resumable checkpoint
says 3. -/
def fsMismatch : FsState :=
  { onnx := some 0, updates := some 5, pt := some 3,
    onnxTmp := none, updatesTmp := none, ptTmp := none }

/-- An arbitrary pre-save filesystem. -/
def fs0 : FsState :=
  { onnx := some 1, updates := some 1, pt := some 1,
    onnxTmp := none, updatesTmp := none, ptTmp := none }

/-! ## Replay buffer lemmas -/

theorem record_ok_size {m : ExperienceMemory} {t : List ℚ} {rand : Nat → ℚ}
    {ci : Nat} {m' : ExperienceMemory} {ci' : Nat}
    (hle : m.memory.length ≤ m.capacity)
    (h : m.record_transition t rand ci = .ok (m', ci')) :
    m'.capacity = m.capacity ∧ m'.memory.length ≤ m.capacity := by
  unfold ExperienceMemory.record_transition at h
  split_ifs at h with h1 h2 h3 h4 <;>
    first
      | exact Except.noConfusion h
      | (injection h with h'; injection h' with hm hc; subst hm;
          refine ⟨rfl, ?_⟩;
          simp only [List.length_append, List.length_set, List.length_cons,
            List.length_nil];
          omega)

theorem recordStep_size (m : ExperienceMemory) (t : List ℚ) (rand : Nat → ℚ)
    (ci : Nat) (hle : m.memory.length ≤ m.capacity) :
    (recordStep m t rand ci).1.capacity = m.capacity ∧
    (recordStep m t rand ci).1.memory.length ≤ m.capacity := by
  unfold recordStep
  cases hrec : m.record_transition t rand ci with
  | ok r =>
    obtain ⟨m', ci'⟩ := r
    simpa using record_ok_size hle hrec
  | error e => exact ⟨rfl, hle⟩

theorem sizesAfter_le (rand : Nat → ℚ) :
    ∀ (ts : List (List ℚ)) (m : ExperienceMemory) (ci : Nat),
      m.memory.length ≤ m.capacity →
      ∀ s ∈ sizesAfter m rand ci ts, s ≤ m.capacity := by
  intro ts
  induction ts with
  | nil => intro m ci hle s hs; simp [sizesAfter] at hs
  | cons t ts ih =>
    intro m ci hle s hs
    simp only [sizesAfter, List.mem_cons] at hs
    obtain ⟨hcap, hsz⟩ := recordStep_size m t rand ci hle
    rcases hs with rfl | hs
    · exact hsz
    · have hrec := ih (recordStep m t rand ci).1 (recordStep m t rand ci).2
        (by omega) s hs
      omega

/-- Claim C1: constructing the replay buffer succeeds for every capacity
C > 0 and fails for C ≤ 0, and along any sequence of `record_transition`
calls (of any length, errors included) the stored count after every call
never exceeds C. -/
theorem c1_capacity_bounds_size (C : Int) :
    (0 < C → ∃ m, ExperienceMemory.init C = .ok m ∧ m.capacity = C.toNat ∧
      ∀ rand ci ts, ∀ s ∈ sizesAfter m rand ci ts, s ≤ C.toNat) ∧
    (C ≤ 0 → ∃ e, ExperienceMemory.init C = .error e) := by
  constructor
  · intro hC
    refine ⟨{ capacity := C.toNat, memory := [], pos := 0 }, ?_, rfl, ?_⟩
    · unfold ExperienceMemory.init
      rw [if_neg (by omega)]
    · intro rand ci ts s hs
      exact sizesAfter_le rand ts { capacity := C.toNat, memory := [], pos := 0 }
        ci (by simp) s hs
  · intro hC
    exact ⟨_, by unfold ExperienceMemory.init; rw [if_pos hC]⟩

/-- Witness for C1: capacity 3 builds a bounded buffer, capacity -1 fails. -/
theorem c1_witness :
    (∃ m, ExperienceMemory.init 3 = .ok m ∧ m.capacity = (3 : Int).toNat ∧
      ∀ rand ci ts, ∀ s ∈ sizesAfter m rand ci ts, s ≤ (3 : Int).toNat) ∧
    (∃ e, ExperienceMemory.init (-1) = .error e) :=
  ⟨(c1_capacity_bounds_size 3).1 (by decide),
   (c1_capacity_bounds_size (-1)).2 (by decide)⟩

/-- Claim C10: any transition with fewer than 19 elements (in particular
every well-formed transition when the configured state dimensionality D is
below 8, since those have 2·D+3 < 19 elements) makes `record_transition`
raise an IndexError before storing anything, leaving the buffer unchanged;
the reward and terminal indices are the constants 9 and 18, not derived
from the server's `state_dims`. -/
theorem c10_short_transition_index_error (m : ExperienceMemory) (t : List ℚ)
    (rand : Nat → ℚ) (ci : Nat) (h : t.length < 19) :
    (∃ msg, m.record_transition t rand ci = .error (.indexError msg)) ∧
    recordStep m t rand ci = (m, ci) ∧
    rewardIdx = 9 ∧ terminalIdx = 18 ∧ (∀ D : Nat, D < 8 → 2 * D + 3 < 19) := by
  have hge : terminalIdx ≥ t.length := by unfold terminalIdx rewardIdx; omega
  refine ⟨⟨"Calculated terminal index is out of bounds for transition length", ?_⟩,
    ?_, rfl, rfl, fun D hD => by omega⟩
  · unfold ExperienceMemory.record_transition
    rw [if_pos hge]
  · unfold recordStep ExperienceMemory.record_transition
    rw [if_pos hge]

/-- Witness for C10 on a 2-element transition. -/
theorem c10_witness :
    ([(1 : ℚ), 2].length < 19) ∧
    ((∃ msg, ExperienceMemory.record_transition ⟨3, [], 0⟩ [1, 2] (fun _ => 0) 0 =
        .error (.indexError msg)) ∧
      recordStep ⟨3, [], 0⟩ [1, 2] (fun _ => 0) 0 = (⟨3, [], 0⟩, 0) ∧
      rewardIdx = 9 ∧ terminalIdx = 18 ∧ (∀ D : Nat, D < 8 → 2 * D + 3 < 19)) :=
  ⟨by decide,
   c10_short_transition_index_error ⟨3, [], 0⟩ [1, 2] (fun _ => 0) 0 (by decide)⟩

/-- Counterexample to C5 as stated: with one stored transition, `sample(0)`
has 0 ≤ size yet does not return 0 stored transitions — `torch.stack` of
the empty sample raises a RuntimeError, not the InsufficientData
ValueError. -/
theorem c5_counterexample :
    0 ≤ (ExperienceMemory.mk 3 [row19 0] 0).memory.length ∧
    ExperienceMemory.get_batch ⟨3, [row19 0], 0⟩ 0 [] =
      .error (.runtimeError "stack expects a non-empty list of tensors") :=
  ⟨Nat.zero_le _, rfl⟩

theorem getD_mem_of_lt {α : Type} (l : List α) (i : Nat) (d : α)
    (h : i < l.length) : l.getD i d ∈ l := by
  rw [List.getD_eq_getElem l d h]
  exact List.getElem_mem h

/-- Claim C5 amended: for 1 ≤ n ≤ size() and stored rows of equal width,
`get_batch n` together with any `random.sample` outcome (n distinct
in-range slots) returns exactly the transitions of those n distinct slots;
for n > size() it raises the InsufficientData ValueError and the buffer is
untouched (the method never writes the state); n = 0 instead raises a
RuntimeError from `torch.stack`. -/
theorem c5_get_batch_spec (m : ExperienceMemory) (n : Nat) (choice : List Nat) :
    (choice.length = n → choice.Nodup → (∀ i ∈ choice, i < m.memory.length) →
      0 < n → n ≤ m.memory.length →
      (∀ r ∈ m.memory, ∀ r' ∈ m.memory, r.length = r'.length) →
      ∃ l, m.get_batch n choice = .ok l ∧ l.length = n ∧
        ∃ idxs : List Nat, idxs.Nodup ∧ idxs.length = n ∧
          (∀ i ∈ idxs, i < m.memory.length) ∧
          l = idxs.map fun i => m.memory.getD i []) ∧
    (m.memory.length < n →
      m.get_batch n choice =
        .error (.valueError "Requested batch size is larger than memory size")) := by
  constructor
  · intro hlen hnodup hin hpos hle hwidth
    unfold ExperienceMemory.get_batch
    rw [if_neg (by omega)]
    have hmem : ∀ i ∈ choice, m.memory.getD i [] ∈ m.memory := fun i hi =>
      getD_mem_of_lt m.memory i [] (hin i hi)
    cases hchoice : choice with
    | nil => exact absurd (hchoice ▸ hlen) (by simpa using Nat.ne_of_lt hpos)
    | cons c cs =>
      subst hchoice
      refine ⟨(c :: cs).map fun i => m.memory.getD i [], ?_, ?_,
        c :: cs, hnodup, hlen, hin, rfl⟩
      · unfold stackRows
        simp only [List.map_cons]
        have hall : ((List.map (fun i => m.memory.getD i []) cs).all fun x =>
            decide (x.length = (m.memory.getD c []).length)) = true := by
          rw [List.all_eq_true]
          intro x hx
          simp only [List.mem_map] at hx
          obtain ⟨i, hi, rfl⟩ := hx
          exact decide_eq_true
            (hwidth _ (hmem i (List.mem_cons_of_mem c hi)) _
              (hmem c (List.mem_cons_self c cs)))
        rw [if_pos hall]
      · simpa using hlen
  · intro hlt
    unfold ExperienceMemory.get_batch
    rw [if_pos (by omega)]

/-- Witness for C5: a two-slot buffer sampled with n = 2 and refused with
n = 3. -/
theorem c5_witness :
    (∃ l, ExperienceMemory.get_batch ⟨3, [row19 0, row19 1], 0⟩ 2 [1, 0] = .ok l ∧
      l.length = 2 ∧ ∃ idxs : List Nat, idxs.Nodup ∧ idxs.length = 2 ∧
        (∀ i ∈ idxs, i < (ExperienceMemory.mk 3 [row19 0, row19 1] 0).memory.length) ∧
        l = idxs.map fun i =>
          (ExperienceMemory.mk 3 [row19 0, row19 1] 0).memory.getD i []) ∧
    ExperienceMemory.get_batch ⟨3, [row19 0, row19 1], 0⟩ 3 [] =
      .error (.valueError "Requested batch size is larger than memory size") :=
  ⟨(c5_get_batch_spec ⟨3, [row19 0, row19 1], 0⟩ 2 [1, 0]).1 (by decide) (by decide)
      (by decide) (by decide) (by decide) (by decide),
   (c5_get_batch_spec ⟨3, [row19 0, row19 1], 0⟩ 3 []).2 (by decide)⟩

/-! ## Eviction policy (C2) -/

theorem modAdd_shift (cap pos i : Nat) :
    ((pos + 1) % cap + i) % cap = (pos + (i + 1)) % cap := by
  rw [Nat.mod_add_mod]
  congr 1
  omega

theorem evictLoop_spec (mem : List (List ℚ)) (cap : Nat) (rand : Nat → ℚ)
    (hcap : 0 < cap) :
    ∀ (fuel pos ci : Nat), pos < cap →
      ∃ k ciOut, k ≤ fuel ∧
        evictLoop mem cap rand fuel pos ci = ((pos + k) % cap, ciOut) ∧
        (∀ i < k, isTerminalRow (mem.getD ((pos + i) % cap) []) = true ∧
          keep rand (ci + i) = true) ∧
        (k < fuel →
          ¬(isTerminalRow (mem.getD ((pos + k) % cap) []) = true ∧
            keep rand (ci + k) = true)) := by
  intro fuel
  induction fuel with
  | zero =>
    intro pos ci hpos
    refine ⟨0, ci, le_refl 0, ?_, ?_, ?_⟩
    · simp [evictLoop, Nat.mod_eq_of_lt hpos]
    · intro i hi; omega
    · intro hk; omega
  | succ fuel ih =>
    intro pos ci hpos
    by_cases hterm : isTerminalRow (mem.getD pos []) = true
    · by_cases hkeep : keep rand ci = true
      · obtain ⟨k, ciOut, hk, heq, hall, hexit⟩ :=
          ih ((pos + 1) % cap) (ci + 1) (Nat.mod_lt _ hcap)
        refine ⟨k + 1, ciOut, by omega, ?_, ?_, ?_⟩
        · simp only [evictLoop, hterm, hkeep, if_true]
          rw [heq, modAdd_shift]
        · intro i hi
          rcases i with _ | i'
          · refine ⟨?_, ?_⟩
            · simpa [Nat.mod_eq_of_lt hpos] using hterm
            · simpa using hkeep
          · have hstep := hall i' (by omega)
            rw [modAdd_shift] at hstep
            refine ⟨hstep.1, ?_⟩
            have h2 := hstep.2
            rwa [show ci + 1 + i' = ci + (i' + 1) by omega] at h2
        · intro hlt
          have hout := hexit (by omega)
          rw [modAdd_shift] at hout
          rwa [show ci + 1 + k = ci + (k + 1) by omega] at hout
      · refine ⟨0, ci + 1, Nat.zero_le _, ?_, ?_, ?_⟩
        · simp only [evictLoop]
          rw [if_pos hterm, if_neg hkeep]
          simp [Nat.mod_eq_of_lt hpos]
        · intro i hi; omega
        · intro _
          simp only [Nat.add_zero, Nat.mod_eq_of_lt hpos]
          rintro ⟨-, hkn⟩
          exact hkeep hkn
    · refine ⟨0, ci, Nat.zero_le _, ?_, ?_, ?_⟩
      · simp only [evictLoop]
        rw [if_neg hterm]
        simp [Nat.mod_eq_of_lt hpos]
      · intro i hi; omega
      · intro _
        simp only [Nat.add_zero, Nat.mod_eq_of_lt hpos]
        rintro ⟨htn, -⟩
        exact hterm htn

/-- Claim C2: recording into a full buffer overwrites exactly the first
cursor slot not kept by the policy: slots are kept while they hold a
terminal transition and the 0.9-biased coin succeeds, the scan advancing
one slot (mod capacity) per kept check and visiting at most capacity + 1
slots, which forces termination; the first slot not kept receives the new
transition and the cursor then advances one past it (mod capacity). -/
theorem c2_eviction_policy (m : ExperienceMemory) (t : List ℚ) (rand : Nat → ℚ)
    (ci : Nat) (hfull : m.memory.length = m.capacity) (hcap : 0 < m.capacity)
    (hpos : m.pos < m.capacity) (hlen : terminalIdx < t.length) :
    ∃ j ciOut, j ≤ m.capacity + 1 ∧
      m.record_transition t rand ci =
        .ok ({ m with memory := m.memory.set ((m.pos + j) % m.capacity) t,
                      pos := ((m.pos + j) % m.capacity + 1) % m.capacity }, ciOut) ∧
      (∀ i < j, isTerminalRow (m.memory.getD ((m.pos + i) % m.capacity) []) = true ∧
        keep rand (ci + i) = true) ∧
      (j ≤ m.capacity →
        ¬(isTerminalRow (m.memory.getD ((m.pos + j) % m.capacity) []) = true ∧
          keep rand (ci + j) = true)) := by
  have hnotshort : ¬(terminalIdx ≥ t.length) := by omega
  have hnotlt : ¬(m.memory.length < m.capacity) := by omega
  by_cases hterm : isTerminalRow (m.memory.getD m.pos []) = true
  · by_cases hkeep : keep rand ci = true
    · obtain ⟨k, ciOut, hk, heq, hall, hexit⟩ :=
        evictLoop_spec m.memory m.capacity rand hcap m.capacity
          ((m.pos + 1) % m.capacity) (ci + 1) (Nat.mod_lt _ hcap)
      refine ⟨k + 1, ciOut, by omega, ?_, ?_, ?_⟩
      · unfold ExperienceMemory.record_transition
        rw [if_neg hnotshort, if_neg hnotlt, if_pos hterm, if_pos hkeep]
        simp only [heq, modAdd_shift]
      · intro i hi
        rcases i with _ | i'
        · refine ⟨?_, ?_⟩
          · simpa [Nat.mod_eq_of_lt hpos] using hterm
          · simpa using hkeep
        · have hstep := hall i' (by omega)
          rw [modAdd_shift] at hstep
          refine ⟨hstep.1, ?_⟩
          have h2 := hstep.2
          rwa [show ci + 1 + i' = ci + (i' + 1) by omega] at h2
      · intro hle
        have hout := hexit (by omega)
        rw [modAdd_shift] at hout
        rwa [show ci + 1 + k = ci + (k + 1) by omega] at hout
    · refine ⟨0, ci + 1, Nat.zero_le _, ?_, ?_, ?_⟩
      · unfold ExperienceMemory.record_transition
        rw [if_neg hnotshort, if_neg hnotlt, if_pos hterm, if_neg hkeep]
        simp [Nat.mod_eq_of_lt hpos]
      · intro i hi; omega
      · intro _
        rw [Nat.add_zero, Nat.add_zero, Nat.mod_eq_of_lt hpos]
        rintro ⟨-, hkn⟩
        exact hkeep hkn
  · refine ⟨0, ci, Nat.zero_le _, ?_, ?_, ?_⟩
    · unfold ExperienceMemory.record_transition
      rw [if_neg hnotshort, if_neg hnotlt, if_neg hterm]
      simp [Nat.mod_eq_of_lt hpos]
    · intro i hi; omega
    · intro _
      rw [Nat.add_zero, Nat.add_zero, Nat.mod_eq_of_lt hpos]
      rintro ⟨htn, -⟩
      exact hterm htn

/-- Witness for C2 on a full two-slot buffer whose cursor slot is terminal
and whose random stream always keeps. -/
theorem c2_witness :
    (evMem2.memory.length = evMem2.capacity ∧ 0 < evMem2.capacity ∧
      evMem2.pos < evMem2.capacity ∧ terminalIdx < (row19 0).length) ∧
    (∃ j ciOut, j ≤ evMem2.capacity + 1 ∧
      evMem2.record_transition (row19 0) (fun _ => 0) 0 =
        .ok ({ evMem2 with
            memory := evMem2.memory.set ((evMem2.pos + j) % evMem2.capacity) (row19 0),
            pos := ((evMem2.pos + j) % evMem2.capacity + 1) % evMem2.capacity }, ciOut) ∧
      (∀ i < j, isTerminalRow
          (evMem2.memory.getD ((evMem2.pos + i) % evMem2.capacity) []) = true ∧
        keep (fun _ => 0) (0 + i) = true) ∧
      (j ≤ evMem2.capacity →
        ¬(isTerminalRow
            (evMem2.memory.getD ((evMem2.pos + j) % evMem2.capacity) []) = true ∧
          keep (fun _ => 0) (0 + j) = true))) :=
  ⟨⟨by decide, by decide, by decide, by decide⟩,
   c2_eviction_policy evMem2 (row19 0) (fun _ => 0) 0 (by decide) (by decide)
     (by decide) (by decide)⟩

/-! ## Index lemmas for the batched tensor arithmetic -/

theorem getD_map {α β : Type} (f : α → β) (l : List α) (k : Nat) (d : β) (d' : α)
    (hk : k < l.length) : (l.map f).getD k d = f (l.getD k d') := by
  induction l generalizing k with
  | nil => simp at hk
  | cons a l ih =>
    cases k with
    | zero => rfl
    | succ k =>
      simp only [List.map_cons, List.getD_cons_succ]
      exact ih k (by simpa using hk)

theorem getD_zipWith {α β γ : Type} (f : α → β → γ) (l1 : List α) (l2 : List β)
    (k : Nat) (d : γ) (d1 : α) (d2 : β) (h1 : k < l1.length) (h2 : k < l2.length) :
    (List.zipWith f l1 l2).getD k d = f (l1.getD k d1) (l2.getD k d2) := by
  induction l1 generalizing l2 k with
  | nil => simp at h1
  | cons a l1 ih =>
    cases l2 with
    | nil => simp at h2
    | cons b l2 =>
      cases k with
      | zero => rfl
      | succ k =>
        simp only [List.zipWith_cons_cons, List.getD_cons_succ]
        exact ih l2 k (by simpa using h1) (by simpa using h2)

/-! ## Record success and row invariants -/

theorem record_ok_of_len (m : ExperienceMemory) (t : List ℚ) (rand : Nat → ℚ)
    (ci : Nat) (h : terminalIdx < t.length) :
    m.record_transition t rand ci = .ok (recordStep m t rand ci) := by
  unfold recordStep ExperienceMemory.record_transition
  split_ifs with h1 h2 h3 h4 <;> first | omega | rfl

theorem record_rows_pred (P : List ℚ → Prop) (m : ExperienceMemory)
    (t : List ℚ) (rand : Nat → ℚ) (ci : Nat)
    (hm : ∀ r ∈ m.memory, P r) (ht : P t) :
    ∀ r ∈ (recordStep m t rand ci).1.memory, P r := by
  unfold recordStep ExperienceMemory.record_transition
  split_ifs with h1 h2 h3 h4 <;> dsimp only <;> intro r hr
  · exact hm r hr
  · rcases List.mem_append.mp hr with h | h
    · exact hm r h
    · rw [List.mem_singleton.mp h]; exact ht
  · rcases List.mem_or_eq_of_mem_set hr with h | h
    · exact hm r h
    · rw [h]; exact ht
  · rcases List.mem_or_eq_of_mem_set hr with h | h
    · exact hm r h
    · rw [h]; exact ht
  · rcases List.mem_or_eq_of_mem_set hr with h | h
    · exact hm r h
    · rw [h]; exact ht

/-! ## Episode dictionary lemmas -/

theorem find_map_update (es : List (Int × Episode)) (cid : Int) (e : Episode)
    (h : es.any (fun p => decide (p.1 = cid)) = true) :
    lookupEp (es.map fun p => if p.1 = cid then (cid, e) else p) cid = some e := by
  unfold lookupEp
  induction es with
  | nil => simp at h
  | cons p ps ih =>
    by_cases hp : p.1 = cid
    · simp only [List.map_cons, if_pos hp]
      rw [List.find?_cons_of_pos _ (by simp)]
      rfl
    · simp only [List.map_cons, if_neg hp]
      rw [List.find?_cons_of_neg _ (by simpa using hp)]
      exact ih (by simpa [List.any_cons, hp] using h)

theorem find_append_new (es : List (Int × Episode)) (cid : Int) (e : Episode)
    (h : es.any (fun p => decide (p.1 = cid)) = false) :
    lookupEp (es ++ [(cid, e)]) cid = some e := by
  unfold lookupEp
  induction es with
  | nil => simp
  | cons p ps ih =>
    simp only [List.any_cons, Bool.or_eq_false_iff] at h
    rw [List.cons_append, List.find?_cons_of_neg _ (by simpa using h.1)]
    exact ih h.2

theorem lookupEp_setEp_self (es : List (Int × Episode)) (cid : Int) (e : Episode) :
    lookupEp (setEp es cid e) cid = some e := by
  unfold setEp
  split_ifs with hany
  · exact find_map_update es cid e hany
  · exact find_append_new es cid e (Bool.eq_false_iff.mpr hany)

theorem lookupEp_eraseEp_self (es : List (Int × Episode)) (cid : Int) :
    lookupEp (eraseEp es cid) cid = none := by
  have hfind : (eraseEp es cid).find? (fun p => decide (p.1 = cid)) = none := by
    rw [List.find?_eq_none]
    intro x hx
    unfold eraseEp at hx
    have hx2 := (List.mem_filter.mp hx).2
    simp only [decide_eq_true_eq] at hx2 ⊢
    exact hx2
  unfold lookupEp
  rw [hfind]
  rfl

/-! ## Training update lemmas -/

theorem perform_update_skip (s : ServerState) (net : List ℚ → List ℚ)
    (sampleIdx : List Nat) (h : s.memory.memory.length < s.batch_size) :
    perform_update s net sampleIdx = ⟨none, s⟩ := by
  unfold perform_update
  rw [if_pos h]

theorem perform_update_spec (s : ServerState) (net : List ℚ → List ℚ)
    (sampleIdx : List Nat)
    (hrows : ∀ r ∈ s.memory.memory, r.length = 2 * s.state_dims + 3)
    (hsam : sampleIdx.length = s.batch_size) (hbs : 0 < s.batch_size)
    (hle : s.batch_size ≤ s.memory.memory.length)
    (hsi : ∀ i ∈ sampleIdx, i < s.memory.memory.length)
    (hact : ∀ r ∈ s.memory.memory,
      0 ≤ Int.floor (r.getD s.state_dims 0) ∧
        Int.floor (r.getD s.state_dims 0) < (s.action_dims : Int))
    (hnet : ∀ x, (net x).length = s.action_dims) :
    ∃ ts : TrainStep,
      perform_update s net sampleIdx =
        ⟨none, { s with updates_counter := s.updates_counter + 1,
                        trainSteps := ts :: s.trainSteps }⟩ ∧
      ts.rows = (sampleIdx.map fun i => s.memory.memory.getD i []) ∧
      ts.qCur = ts.rows.map (fun r => net (r.take s.state_dims)) ∧
      ts.qNext = ts.rows.map
        (fun r => net ((r.drop (s.state_dims + 2)).take s.state_dims)) ∧
      ts.qTaken = ((ts.rows.map (fun r => net (r.take s.state_dims))).zip
          (ts.rows.map fun r => Int.floor (r.getD s.state_dims 0))).map
          (fun p => p.1.getD p.2.toNat 0) ∧
      ts.targets = List.zipWith (fun r mq => r + s.gamma * mq)
        (ts.rows.map fun r => r.getD (s.state_dims + 1) 0)
        (List.zipWith (fun c q => if c then 0 else q)
          (ts.rows.map fun r => decide (r.getD (2 * s.state_dims + 2) 0 ≠ 0))
          ((ts.rows.map
            (fun r => net ((r.drop (s.state_dims + 2)).take s.state_dims))).map rowMax)) ∧
      ts.loss = mseLoss ts.qTaken ts.targets ∧
      ts.clipMaxNorm = 1 ∧ ts.optimSteps = 1 ∧ ts.step = s.updates_counter + 1 := by
  have hmem : ∀ i ∈ sampleIdx, s.memory.memory.getD i [] ∈ s.memory.memory :=
    fun i hi => getD_mem_of_lt _ i [] (hsi i hi)
  have hrowsMem : ∀ r ∈ (sampleIdx.map fun i => s.memory.memory.getD i []),
      r ∈ s.memory.memory := by
    intro r hr
    simp only [List.mem_map] at hr
    obtain ⟨i, hi, rfl⟩ := hr
    exact hmem i hi
  have hgb : s.memory.get_batch s.batch_size sampleIdx =
      .ok (sampleIdx.map fun i => s.memory.memory.getD i []) := by
    unfold ExperienceMemory.get_batch
    rw [if_neg (by omega)]
    cases hs : sampleIdx with
    | nil => rw [hs] at hsam; simp at hsam; omega
    | cons c cs =>
      subst hs
      unfold stackRows
      simp only [List.map_cons]
      have hall : ((List.map (fun i => s.memory.memory.getD i []) cs).all fun x =>
          decide (x.length = (s.memory.memory.getD c []).length)) = true := by
        rw [List.all_eq_true]
        intro x hx
        simp only [List.mem_map] at hx
        obtain ⟨i, hi, rfl⟩ := hx
        refine decide_eq_true ?_
        rw [hrows _ (hmem i (List.mem_cons_of_mem c hi)),
          hrows _ (hmem c (List.mem_cons_self c cs))]
      rw [if_pos hall]
  have hhead : ¬(((sampleIdx.map fun i => s.memory.memory.getD i []).headD []).length ≠
      2 * s.state_dims + 3) := by
    cases hs : sampleIdx with
    | nil => rw [hs] at hsam; simp at hsam; omega
    | cons c cs =>
      simp only [List.map_cons, List.headD_cons, ne_eq, not_not]
      exact hrows _ (hmem c (hs ▸ List.mem_cons_self c cs))
  have hgather : (((sampleIdx.map fun i => s.memory.memory.getD i []).map
        (fun r => net (r.take s.state_dims))).zip
        ((sampleIdx.map fun i => s.memory.memory.getD i []).map
          (fun r => Int.floor (r.getD s.state_dims 0)))).all
      (fun p => decide (0 ≤ p.2 ∧ p.2 < (p.1.length : Int))) = true := by
    rw [List.all_eq_true]
    intro p hp
    obtain ⟨a, b⟩ := p
    obtain ⟨ha, hb⟩ := List.of_mem_zip hp
    simp only [List.mem_map] at ha hb
    obtain ⟨r1, hr1, rfl⟩ := ha
    obtain ⟨r2, hr2, rfl⟩ := hb
    obtain ⟨i2, hi2, rfl⟩ := hr2
    refine decide_eq_true ⟨(hact _ (hmem i2 hi2)).1, ?_⟩
    rw [hnet (r1.take s.state_dims)]
    exact (hact _ (hmem i2 hi2)).2
  refine ⟨mkTrainStep s net (sampleIdx.map fun i => s.memory.memory.getD i []),
    ?_, rfl, rfl, rfl, rfl, rfl, rfl, rfl, rfl, rfl⟩
  unfold perform_update
  rw [if_neg (by omega), hgb]
  dsimp only
  rw [if_neg hhead]
  rw [if_pos hgather]

theorem perform_update_effect (s : ServerState) (net : List ℚ → List ℚ)
    (sampleIdx : List Nat)
    (hrows : ∀ r ∈ s.memory.memory, r.length = 2 * s.state_dims + 3)
    (hsam : sampleIdx.length = s.batch_size) (hbs : 0 < s.batch_size)
    (hle : s.batch_size ≤ s.memory.memory.length)
    (hsi : ∀ i ∈ sampleIdx, i < s.memory.memory.length)
    (hact : ∀ r ∈ s.memory.memory,
      0 ≤ Int.floor (r.getD s.state_dims 0) ∧
        Int.floor (r.getD s.state_dims 0) < (s.action_dims : Int))
    (hnet : ∀ x, (net x).length = s.action_dims) :
    (perform_update s net sampleIdx).err = none ∧
    (perform_update s net sampleIdx).s.memory = s.memory ∧
    (perform_update s net sampleIdx).s.updates_counter = s.updates_counter + 1 ∧
    (perform_update s net sampleIdx).s.trainSteps.length = s.trainSteps.length + 1 := by
  obtain ⟨ts, hpu, -⟩ :=
    perform_update_spec s net sampleIdx hrows hsam hbs hle hsi hact hnet
  rw [hpu]
  exact ⟨rfl, rfl, rfl, by simp⟩

theorem perform_update_preserves (s : ServerState) (net : List ℚ → List ℚ)
    (sampleIdx : List Nat) :
    (perform_update s net sampleIdx).s.episodeLogs = s.episodeLogs ∧
    (perform_update s net sampleIdx).s.episodes = s.episodes := by
  unfold perform_update
  by_cases h1 : s.memory.memory.length < s.batch_size
  · rw [if_pos h1]; exact ⟨rfl, rfl⟩
  · rw [if_neg h1]
    rcases hgb : s.memory.get_batch s.batch_size sampleIdx with e | rows
    · cases e <;> exact ⟨rfl, rfl⟩
    · dsimp only
      by_cases h2 : (rows.headD []).length ≠ 2 * s.state_dims + 3
      · rw [if_pos h2]; exact ⟨rfl, rfl⟩
      · rw [if_neg h2]
        by_cases h3 : (((rows.map fun r => net (r.take s.state_dims)).zip
            (rows.map fun r => Int.floor (r.getD s.state_dims 0))).all
            (fun p => decide (0 ≤ p.2 ∧ p.2 < (p.1.length : Int)))) = true
        · rw [if_pos h3]; exact ⟨rfl, rfl⟩
        · rw [if_neg h3]; exact ⟨rfl, rfl⟩

theorem perform_update_effect_env (s0 : ServerState) (E : List (Int × Episode))
    (L : List EpisodeLog) (net : List ℚ → List ℚ) (sampleIdx : List Nat)
    (hrows : ∀ r ∈ s0.memory.memory, r.length = 2 * s0.state_dims + 3)
    (hsam : sampleIdx.length = s0.batch_size) (hbs : 0 < s0.batch_size)
    (hle : s0.batch_size ≤ s0.memory.memory.length)
    (hsi : ∀ i ∈ sampleIdx, i < s0.memory.memory.length)
    (hact : ∀ r ∈ s0.memory.memory,
      0 ≤ Int.floor (r.getD s0.state_dims 0) ∧
        Int.floor (r.getD s0.state_dims 0) < (s0.action_dims : Int))
    (hnet : ∀ x, (net x).length = s0.action_dims) :
    (perform_update { s0 with episodes := E, episodeLogs := L } net sampleIdx).err =
      none ∧
    (perform_update { s0 with episodes := E, episodeLogs := L } net
      sampleIdx).s.memory = s0.memory ∧
    (perform_update { s0 with episodes := E, episodeLogs := L } net
      sampleIdx).s.updates_counter = s0.updates_counter + 1 ∧
    (perform_update { s0 with episodes := E, episodeLogs := L } net
      sampleIdx).s.trainSteps.length = s0.trainSteps.length + 1 :=
  perform_update_effect { s0 with episodes := E, episodeLogs := L } net sampleIdx
    hrows hsam hbs hle hsi hact hnet

/-- Claim C3: after a transition is successfully recorded, the handler
performs exactly one training update and increments the update counter by
exactly one when the buffer size has reached `batch_size`, and performs
none (counter and training trace unchanged) when it has not.  The
hypotheses are the pipeline invariants: packets carry 2·D+3 ≥ 19 elements,
every stored row has that width, `batch_size` is positive, `random.sample`
yields `batch_size` in-range positions, the stored action entries are valid
action indices, and the network emits one value per action. -/
theorem c3_counter_per_record (s : ServerState) (net : List ℚ → List ℚ)
    (cid : Int) (packet : List ℚ) (rand : Nat → ℚ) (ci : Nat) (sampleIdx : List Nat)
    (hD : 8 ≤ s.state_dims)
    (hpkt : packet.length = 2 * s.state_dims + 3)
    (hrows : ∀ r ∈ s.memory.memory, r.length = 2 * s.state_dims + 3)
    (hbs : 0 < s.batch_size)
    (hsam : sampleIdx.length = s.batch_size)
    (hsi : ∀ i ∈ sampleIdx, i < (recordStep s.memory packet rand ci).1.memory.length)
    (hact : ∀ r ∈ (recordStep s.memory packet rand ci).1.memory,
      0 ≤ Int.floor (r.getD s.state_dims 0) ∧
        Int.floor (r.getD s.state_dims 0) < (s.action_dims : Int))
    (hnet : ∀ x, (net x).length = s.action_dims) :
    (handle_transition s net cid packet rand ci sampleIdx).err = none ∧
    (handle_transition s net cid packet rand ci sampleIdx).s.memory =
      (recordStep s.memory packet rand ci).1 ∧
    (s.batch_size ≤ (recordStep s.memory packet rand ci).1.memory.length →
      (handle_transition s net cid packet rand ci sampleIdx).s.updates_counter =
          s.updates_counter + 1 ∧
        (handle_transition s net cid packet rand ci sampleIdx).s.trainSteps.length =
          s.trainSteps.length + 1) ∧
    ((recordStep s.memory packet rand ci).1.memory.length < s.batch_size →
      (handle_transition s net cid packet rand ci sampleIdx).s.updates_counter =
          s.updates_counter ∧
        (handle_transition s net cid packet rand ci sampleIdx).s.trainSteps =
          s.trainSteps) := by
  have hlen : terminalIdx < packet.length := by
    unfold terminalIdx rewardIdx
    omega
  have hrowsAfter : ∀ r ∈ (recordStep s.memory packet rand ci).1.memory,
      r.length = 2 * s.state_dims + 3 :=
    record_rows_pred _ s.memory packet rand ci hrows hpkt
  have hrec := record_ok_of_len s.memory packet rand ci hlen
  generalize hrs : recordStep s.memory packet rand ci = rs at hrec hsi hact hrowsAfter ⊢
  obtain ⟨mem', ci'⟩ := rs
  dsimp only at hsi hact hrowsAfter ⊢
  unfold handle_transition
  rw [hrec]
  dsimp only
  rw [lookupEp_setEp_self]
  by_cases hterm : packet.getD (2 * s.state_dims + 2) 0 ≠ 0
  · rw [if_pos (decide_eq_true hterm)]
    dsimp only
    by_cases hsz : s.batch_size ≤ mem'.memory.length
    · rw [if_pos hsz]
      refine ⟨(perform_update_effect_env { s with memory := mem' } _ _ net sampleIdx
          hrowsAfter hsam hbs hsz hsi hact hnet).1,
        (perform_update_effect_env { s with memory := mem' } _ _ net sampleIdx
          hrowsAfter hsam hbs hsz hsi hact hnet).2.1, ?_, ?_⟩
      · intro _
        exact ⟨(perform_update_effect_env { s with memory := mem' } _ _ net sampleIdx
            hrowsAfter hsam hbs hsz hsi hact hnet).2.2.1,
          (perform_update_effect_env { s with memory := mem' } _ _ net sampleIdx
            hrowsAfter hsam hbs hsz hsi hact hnet).2.2.2⟩
      · intro hcon
        omega
    · rw [if_neg hsz]
      refine ⟨rfl, rfl, ?_, fun _ => ⟨rfl, rfl⟩⟩
      intro hcon
      omega
  · rw [if_neg (show ¬(decide (packet.getD (2 * s.state_dims + 2) 0 ≠ 0) = true) by
        simp only [decide_eq_true_eq]; exact hterm)]
    dsimp only
    by_cases hsz : s.batch_size ≤ mem'.memory.length
    · rw [if_pos hsz]
      refine ⟨(perform_update_effect_env { s with memory := mem' } _ _ net sampleIdx
          hrowsAfter hsam hbs hsz hsi hact hnet).1,
        (perform_update_effect_env { s with memory := mem' } _ _ net sampleIdx
          hrowsAfter hsam hbs hsz hsi hact hnet).2.1, ?_, ?_⟩
      · intro _
        exact ⟨(perform_update_effect_env { s with memory := mem' } _ _ net sampleIdx
            hrowsAfter hsam hbs hsz hsi hact hnet).2.2.1,
          (perform_update_effect_env { s with memory := mem' } _ _ net sampleIdx
            hrowsAfter hsam hbs hsz hsi hact hnet).2.2.2⟩
      · intro hcon
        omega
    · rw [if_neg hsz]
      refine ⟨rfl, rfl, ?_, fun _ => ⟨rfl, rfl⟩⟩
      intro hcon
      omega

/-- Witness for C3: with batch size 1 and one stored transition, recording
one more transition triggers exactly one update. -/
theorem c3_witness :
    (handle_transition s1 net0 7 (row19 1) (fun _ => 0) 0 [0]).err = none ∧
    (handle_transition s1 net0 7 (row19 1) (fun _ => 0) 0 [0]).s.updates_counter =
      s1.updates_counter + 1 ∧
    (handle_transition s1 net0 7 (row19 1) (fun _ => 0) 0 [0]).s.trainSteps.length =
      s1.trainSteps.length + 1 := by
  have h := c3_counter_per_record s1 net0 7 (row19 1) (fun _ => 0) 0 [0]
    (by decide) (by decide) (by decide) (by decide) (by decide) (by decide)
    (by decide) (fun x => rfl)
  exact ⟨h.1, (h.2.2.1 (by decide)).1, (h.2.2.1 (by decide)).2⟩

theorem getD_zip_pair {α β : Type} (l1 : List α) (l2 : List β) (k : Nat)
    (d1 : α) (d2 : β) (h1 : k < l1.length) (h2 : k < l2.length) :
    (l1.zip l2).getD k (d1, d2) = (l1.getD k d1, l2.getD k d2) := by
  induction l1 generalizing l2 k with
  | nil => simp at h1
  | cons a l1 ih =>
    cases l2 with
    | nil => simp at h2
    | cons b l2 =>
      cases k with
      | zero => rfl
      | succ k =>
        simp only [List.zip_cons_cons, List.getD_cons_succ]
        exact ih l2 k (by simpa using h1) (by simpa using h2)

/-- Claim C4: every training update computes, for each sampled transition,
the one-step target reward + γ·(max over the same network's next-state
values), with the bootstrap term zeroed on terminal transitions; the value
of the taken action and the bootstrap target are both produced by the one
online network `net` (no target network); the scalar loss is the
mean-squared error between taken-action values and targets; and exactly one
optimizer step is applied after gradient-norm clipping at max-norm 1.0. -/
theorem c4_update_math (s : ServerState) (net : List ℚ → List ℚ)
    (sampleIdx : List Nat)
    (hrows : ∀ r ∈ s.memory.memory, r.length = 2 * s.state_dims + 3)
    (hsam : sampleIdx.length = s.batch_size) (hbs : 0 < s.batch_size)
    (hle : s.batch_size ≤ s.memory.memory.length)
    (hsi : ∀ i ∈ sampleIdx, i < s.memory.memory.length)
    (hact : ∀ r ∈ s.memory.memory,
      0 ≤ Int.floor (r.getD s.state_dims 0) ∧
        Int.floor (r.getD s.state_dims 0) < (s.action_dims : Int))
    (hnet : ∀ x, (net x).length = s.action_dims) :
    ∃ ts : TrainStep,
      perform_update s net sampleIdx =
        ⟨none, { s with updates_counter := s.updates_counter + 1,
                        trainSteps := ts :: s.trainSteps }⟩ ∧
      ts.qCur = ts.rows.map (fun r => net (r.take s.state_dims)) ∧
      ts.qNext = ts.rows.map
        (fun r => net ((r.drop (s.state_dims + 2)).take s.state_dims)) ∧
      ts.targets.length = ts.rows.length ∧
      (∀ k, k < ts.rows.length →
        ts.targets.getD k 0 =
          (ts.rows.getD k []).getD (s.state_dims + 1) 0 +
            s.gamma *
              (if (ts.rows.getD k []).getD (2 * s.state_dims + 2) 0 ≠ 0 then 0
                else rowMax
                  (net (((ts.rows.getD k []).drop (s.state_dims + 2)).take
                    s.state_dims)))) ∧
      (∀ k, k < ts.rows.length →
        ts.qTaken.getD k 0 =
          (net ((ts.rows.getD k []).take s.state_dims)).getD
            (Int.floor ((ts.rows.getD k []).getD s.state_dims 0)).toNat 0) ∧
      ts.loss = mseLoss ts.qTaken ts.targets ∧
      ts.clipMaxNorm = 1 ∧ ts.optimSteps = 1 := by
  obtain ⟨ts, hpu, hrows', hqCur, hqNext, hqTaken, htargets, hloss, hclip, hopt, -⟩ :=
    perform_update_spec s net sampleIdx hrows hsam hbs hle hsi hact hnet
  refine ⟨ts, hpu, hqCur, hqNext, ?_, ?_, ?_, hloss, hclip, hopt⟩
  · rw [htargets]
    simp [List.length_zipWith, List.length_map, Nat.min_self]
  · intro k hk
    rw [htargets]
    rw [getD_zipWith (fun r mq => r + s.gamma * mq)
      (ts.rows.map fun r => r.getD (s.state_dims + 1) 0)
      (List.zipWith (fun c q => if c then 0 else q)
        (ts.rows.map fun r => decide (r.getD (2 * s.state_dims + 2) 0 ≠ 0))
        ((ts.rows.map
          (fun r => net ((r.drop (s.state_dims + 2)).take s.state_dims))).map rowMax))
      k 0 0 0 (by simpa using hk)
      (by simp only [List.length_zipWith, List.length_map, Nat.min_self]; exact hk)]
    rw [getD_map (fun r => r.getD (s.state_dims + 1) 0) ts.rows k 0 [] hk]
    rw [getD_zipWith (fun c q => if c then 0 else q)
      (ts.rows.map fun r => decide (r.getD (2 * s.state_dims + 2) 0 ≠ 0))
      ((ts.rows.map
        (fun r => net ((r.drop (s.state_dims + 2)).take s.state_dims))).map rowMax)
      k 0 false 0 (by simpa using hk) (by simpa using hk)]
    rw [getD_map (fun r => decide (r.getD (2 * s.state_dims + 2) 0 ≠ 0))
      ts.rows k false [] hk]
    rw [getD_map rowMax
      (ts.rows.map fun r => net ((r.drop (s.state_dims + 2)).take s.state_dims))
      k 0 [] (by simpa using hk)]
    rw [getD_map (fun r => net ((r.drop (s.state_dims + 2)).take s.state_dims))
      ts.rows k [] [] hk]
    simp only [decide_eq_true_eq]
  · intro k hk
    rw [hqTaken]
    rw [getD_map (fun p => p.1.getD p.2.toNat 0)
      ((ts.rows.map (fun r => net (r.take s.state_dims))).zip
        (ts.rows.map fun r => Int.floor (r.getD s.state_dims 0)))
      k 0 ([], 0)
      (by simp only [List.length_zip, List.length_map, Nat.min_self]; exact hk)]
    rw [getD_zip_pair (ts.rows.map (fun r => net (r.take s.state_dims)))
      (ts.rows.map fun r => Int.floor (r.getD s.state_dims 0))
      k [] 0 (by simpa using hk) (by simpa using hk)]
    rw [getD_map (fun r => net (r.take s.state_dims)) ts.rows k [] [] hk]
    rw [getD_map (fun r => Int.floor (r.getD s.state_dims 0)) ts.rows k 0 [] hk]

/-- Witness for C4 on a one-element batch. -/
theorem c4_witness :
    ∃ ts : TrainStep,
      perform_update s1 net0 [0] =
        ⟨none, { s1 with updates_counter := s1.updates_counter + 1,
                         trainSteps := ts :: s1.trainSteps }⟩ ∧
      ts.qCur = ts.rows.map (fun r => net0 (r.take s1.state_dims)) ∧
      ts.qNext = ts.rows.map
        (fun r => net0 ((r.drop (s1.state_dims + 2)).take s1.state_dims)) ∧
      ts.targets.length = ts.rows.length ∧
      (∀ k, k < ts.rows.length →
        ts.targets.getD k 0 =
          (ts.rows.getD k []).getD (s1.state_dims + 1) 0 +
            s1.gamma *
              (if (ts.rows.getD k []).getD (2 * s1.state_dims + 2) 0 ≠ 0 then 0
                else rowMax
                  (net0 (((ts.rows.getD k []).drop (s1.state_dims + 2)).take
                    s1.state_dims)))) ∧
      (∀ k, k < ts.rows.length →
        ts.qTaken.getD k 0 =
          (net0 ((ts.rows.getD k []).take s1.state_dims)).getD
            (Int.floor ((ts.rows.getD k []).getD s1.state_dims 0)).toNat 0) ∧
      ts.loss = mseLoss ts.qTaken ts.targets ∧
      ts.clipMaxNorm = 1 ∧ ts.optimSteps = 1 :=
  c4_update_math s1 net0 [0] (by decide) (by decide) (by decide) (by decide)
    (by decide) (by decide) (fun x => rfl)

/-- Counterexample to C8 as stated: a terminal transition from a client id
with no accumulator does not get ignored — the handler creates a fresh
accumulator first (line 404 runs before the terminal check), so an episode
summary IS emitted for that client id. -/
theorem c8_counterexample :
    lookupEp s0.episodes 7 = none ∧
    (row19 1).getD (2 * s0.state_dims + 2) 0 ≠ 0 ∧
    (handle_transition s0 net0 7 (row19 1) (fun _ => 0) 0 []).s.episodeLogs.length =
      s0.episodeLogs.length + 1 := by decide

/-- Claim C8 amended: a terminal transition from an unknown client id is not
ignored: the handler creates a fresh accumulator, folds this one transition
into it, emits exactly one episode summary of length 1 with this
transition's reward, and deletes the accumulator; the warning branch for an
unknown id is unreachable after a successful record. -/
theorem c8_unknown_terminal_emits (s : ServerState) (net : List ℚ → List ℚ)
    (cid : Int) (packet : List ℚ) (rand : Nat → ℚ) (ci : Nat) (sampleIdx : List Nat)
    (hunknown : lookupEp s.episodes cid = none)
    (hlen : terminalIdx < packet.length)
    (hterm : packet.getD (2 * s.state_dims + 2) 0 ≠ 0) :
    ∃ entry : EpisodeLog,
      (handle_transition s net cid packet rand ci sampleIdx).s.episodeLogs =
        s.episodeLogs ++ [entry] ∧
      entry.length = 1 ∧
      entry.reward = packet.getD (s.state_dims + 1) 0 ∧
      lookupEp (handle_transition s net cid packet rand ci sampleIdx).s.episodes
        cid = none := by
  have hrec := record_ok_of_len s.memory packet rand ci hlen
  generalize hrs : recordStep s.memory packet rand ci = rs at hrec
  obtain ⟨mem', ci'⟩ := rs
  unfold handle_transition
  rw [hrec]
  dsimp only
  rw [if_pos hunknown, lookupEp_setEp_self, lookupEp_setEp_self]
  rw [if_pos (decide_eq_true hterm)]
  dsimp only
  by_cases hsz : s.batch_size ≤ mem'.memory.length
  · rw [if_pos hsz]
    refine ⟨_, (perform_update_preserves _ net sampleIdx).1, rfl, zero_add _, ?_⟩
    rw [(perform_update_preserves _ net sampleIdx).2]
    exact lookupEp_eraseEp_self _ cid
  · rw [if_neg hsz]
    exact ⟨_, rfl, rfl, zero_add _, lookupEp_eraseEp_self _ cid⟩

/-- Witness for C8 amended, on a fresh server with an unknown client id. -/
theorem c8_witness :
    ∃ entry : EpisodeLog,
      (handle_transition s0 net0 7 (row19 1) (fun _ => 0) 0 []).s.episodeLogs =
        s0.episodeLogs ++ [entry] ∧
      entry.length = 1 ∧
      entry.reward = (row19 1).getD (s0.state_dims + 1) 0 ∧
      lookupEp (handle_transition s0 net0 7 (row19 1) (fun _ => 0) 0 []).s.episodes
        7 = none :=
  c8_unknown_terminal_emits s0 net0 7 (row19 1) (fun _ => 0) 0 [] (by decide)
    (by decide) (by decide)

/-! ## Metrics sanitization (C9) -/

/-- Counterexample to C9 as stated: a non-finite loss is not sanitized to 0
and emitted — `log_update` skips the whole update message. -/
theorem c9_counterexample :
    log_update FVal.nonfinite (FVal.fin 1) [] 3 = none := rfl

/-- Claim C9 amended: the episode reward (sanitized by the server before
the call), the episode average value, and the batch average reward are each
sanitized to 0 when non-finite and the message is still emitted; a
non-finite update loss instead causes the whole update message to be
skipped with a warning. -/
theorem c9_sanitization (len : Nat) (reward aq loss ar : FVal) (qs : List FVal)
    (step : Nat) :
    (sanitizeEpisodeReward reward).isFinite = true ∧
    sanitizeEpisodeReward reward = (if reward.isFinite then reward else .fin 0) ∧
    (∃ m : EpisodeMsg, log_episode len (sanitizeEpisodeReward reward) aq = some m ∧
      m.reward = sanitizeEpisodeReward reward ∧
      m.avg_q_value = (if aq.isFinite then aq else .fin 0) ∧
      m.avg_q_value.isFinite = true) ∧
    log_update loss ar qs step =
      (if loss.isFinite then
        some ⟨loss, if ar.isFinite then ar else .fin 0, qs, step⟩
      else none) := by
  refine ⟨?_, rfl, ⟨_, rfl, rfl, rfl, ?_⟩, rfl⟩
  · cases reward <;> rfl
  · cases aq <;> rfl

/-! ## Checkpoint save and load (C6, C7) -/

/-- Counterexample to C6 as stated: an export failure is not propagated to
the caller of `save()` — `_save_network` catches the exception, logs, and
returns normally with every temp file removed. -/
theorem c6_counterexample :
    save_network fs0 7 true (some 0) =
      { fs := clearTemps fs0, outcome := .failedLogged, lockHeldAfter := false } :=
  rfl

/-- Claim C6 amended: on a 10-second lock timeout `save()` logs and skips
the save (non-fatal); otherwise each artifact is written to a temp path and
renamed into place, a full success recording the counter in every artifact
with no temp left behind; if any step of the internal save raises, every
partial temp file is deleted and the exception is caught and logged inside
`save()` itself — it is not propagated to `save()`'s caller; the lock is
released on every path. -/
theorem c6_save_behavior (fs : FsState) (c : Int) (lockAvailable : Bool)
    (failAt : Option Nat) :
    saveLockTimeout = 10 ∧
    (save_network fs c lockAvailable failAt).lockHeldAfter = false ∧
    (lockAvailable = false →
      save_network fs c lockAvailable failAt = ⟨fs, .skippedTimeout, false⟩) ∧
    ((∀ k, k < 6 → failAt ≠ some k) → lockAvailable = true →
      ∃ fs', save_network fs c lockAvailable failAt = ⟨fs', .saved, false⟩ ∧
        fs'.onnx = some c ∧ fs'.updates = some c ∧ fs'.pt = some c ∧
        fs'.onnxTmp = none ∧ fs'.updatesTmp = none ∧ fs'.ptTmp = none) ∧
    (∀ k, k < 6 → failAt = some k → lockAvailable = true →
      ∃ fs', save_network fs c lockAvailable failAt = ⟨fs', .failedLogged, false⟩ ∧
        fs'.onnxTmp = none ∧ fs'.updatesTmp = none ∧ fs'.ptTmp = none) := by
  refine ⟨rfl, ?_, ?_, ?_, ?_⟩
  · unfold save_network
    by_cases hl : lockAvailable = true
    · rw [if_pos hl]
      cases save_network_internal fs c failAt <;> rfl
    · rw [if_neg hl]
  · intro hl
    unfold save_network
    rw [hl]
    rfl
  · intro hnone hl
    have h0 := hnone 0 (by omega)
    have h1 := hnone 1 (by omega)
    have h2 := hnone 2 (by omega)
    have h3 := hnone 3 (by omega)
    have h4 := hnone 4 (by omega)
    have h5 := hnone 5 (by omega)
    unfold save_network
    rw [if_pos hl]
    have hrun : save_network_internal fs c failAt =
        .ok { onnx := some c, updates := some c, pt := some c,
              onnxTmp := none, updatesTmp := none, ptTmp := none } := by
      unfold save_network_internal
      simp only [saveGo, if_neg h0, if_neg h1, if_neg h2, if_neg h3, if_neg h4,
        if_neg h5]
      rfl
    rw [hrun]
    exact ⟨_, rfl, rfl, rfl, rfl, rfl, rfl, rfl⟩
  · intro k hk hfail hl
    unfold save_network
    rw [if_pos hl]
    have hrun : ∃ fsMid, save_network_internal fs c failAt =
        .raised (clearTemps fsMid) := by
      subst hfail
      interval_cases k
      · exact ⟨fs, rfl⟩
      · exact ⟨_, rfl⟩
      · exact ⟨_, rfl⟩
      · exact ⟨_, rfl⟩
      · exact ⟨_, rfl⟩
      · exact ⟨_, rfl⟩
    obtain ⟨fsMid, hrun⟩ := hrun
    rw [hrun]
    exact ⟨clearTemps fsMid, rfl, rfl, rfl, rfl⟩

/-- Witness for C6: a lock timeout skip, a full save, and a caught failure,
all on the same concrete filesystem. -/
theorem c6_witness :
    (save_network fs0 7 false none = ⟨fs0, .skippedTimeout, false⟩) ∧
    (∃ fs', save_network fs0 7 true none = ⟨fs', .saved, false⟩ ∧
      fs'.onnx = some 7 ∧ fs'.updates = some 7 ∧ fs'.pt = some 7 ∧
      fs'.onnxTmp = none ∧ fs'.updatesTmp = none ∧ fs'.ptTmp = none) ∧
    (∃ fs', save_network fs0 7 true (some 1) = ⟨fs', .failedLogged, false⟩ ∧
      fs'.onnxTmp = none ∧ fs'.updatesTmp = none ∧ fs'.ptTmp = none) :=
  ⟨(c6_save_behavior fs0 7 false none).2.2.1 rfl,
   (c6_save_behavior fs0 7 true none).2.2.2.1 (fun k _ => by simp) rfl,
   (c6_save_behavior fs0 7 true (some 1)).2.2.2.2 1 (by omega) rfl rfl⟩

/-- Counterexample to C7 as stated: with the counter file at 5 and the
resumable checkpoint recording 3, construction-time load does not treat the
state as corrupt — no fresh save is forced, the counter file's value is
adopted, and the artifacts still disagree afterwards. -/
theorem c7_counterexample :
    fsMismatch.updates = some 5 ∧ fsMismatch.pt = some 3 ∧
    init_network_state true fsMismatch false false none =
      .ok (5, false, fsMismatch) ∧ fsMismatch.updates ≠ fsMismatch.pt := by
  exact ⟨rfl, rfl, rfl, by decide⟩

/-- Claim C7 amended: when the resumable checkpoint and the counter file
both exist and load cleanly, the code adopts the counter file's value and
forces no save regardless of whether the two counters agree — a mismatch
only logs a warning and leaves the artifacts inconsistent on disk (the
counter file is preferred as ground truth); a resync save, resetting the
counter to 0 and rewriting every artifact, is forced instead when the
resumable checkpoint is missing (or fails to load, or the counter file is
unreadable); a lock timeout at load is fatal. -/
theorem c7_load_mismatch (fs : FsState) (readFails ptLoadFails : Bool)
    (saveFail : Option Nat) (u v : Int) :
    (init_network_state false fs readFails ptLoadFails saveFail = .error ()) ∧
    (fs.onnx.isSome = true → fs.updates = some v → readFails = false →
      fs.pt = some u → ptLoadFails = false →
      init_network_state true fs readFails ptLoadFails saveFail =
        .ok (v, false, fs)) ∧
    (fs.onnx.isSome = true → fs.updates = some v → readFails = false →
      fs.pt = none → (∀ k, k < 6 → saveFail ≠ some k) →
      ∃ fs', init_network_state true fs readFails ptLoadFails saveFail =
          .ok (0, true, fs') ∧
        fs'.updates = some 0 ∧ fs'.pt = some 0) := by
  refine ⟨rfl, ?_, ?_⟩
  · intro honnx hupd hread hpt hload
    obtain ⟨o, ho⟩ := Option.isSome_iff_exists.mp honnx
    unfold init_network_state
    rw [if_neg (by simp), ho, hupd]
    dsimp only
    rw [hread, hpt]
    dsimp only
    rw [hload]
    rfl
  · intro honnx hupd hread hpt hnone
    have h0 := hnone 0 (by omega)
    have h1 := hnone 1 (by omega)
    have h2 := hnone 2 (by omega)
    have h3 := hnone 3 (by omega)
    have h4 := hnone 4 (by omega)
    have h5 := hnone 5 (by omega)
    obtain ⟨o, ho⟩ := Option.isSome_iff_exists.mp honnx
    have hrun : save_network_internal fs 0 saveFail =
        .ok { onnx := some 0, updates := some 0, pt := some 0,
              onnxTmp := none, updatesTmp := none, ptTmp := none } := by
      unfold save_network_internal
      simp only [saveGo, if_neg h0, if_neg h1, if_neg h2, if_neg h3, if_neg h4,
        if_neg h5]
      rfl
    unfold init_network_state
    rw [if_neg (by simp), hrun, ho, hupd]
    dsimp only
    rw [hread, hpt]
    exact ⟨_, rfl, rfl, rfl⟩

/-- Witness for C7: the fatal-timeout, mismatch, and missing-checkpoint
cases on concrete filesystems. -/
theorem c7_witness :
    (init_network_state false fsMismatch false false none = .error ()) ∧
    (init_network_state true fsMismatch false false none =
      .ok (5, false, fsMismatch)) ∧
    (∃ fs', init_network_state true ⟨some 1, some 5, none, none, none, none⟩
        false false none = .ok (0, true, fs') ∧
      fs'.updates = some 0 ∧ fs'.pt = some 0) :=
  ⟨(c7_load_mismatch fsMismatch false false none 3 5).1,
   (c7_load_mismatch fsMismatch false false none 3 5).2.1 rfl rfl rfl rfl rfl,
   (c7_load_mismatch ⟨some 1, some 5, none, none, none, none⟩ false false none 3 5).2.2
     rfl rfl rfl rfl (fun k _ => by simp)⟩

end Plato
